import Mathlib

/-!
# Verification of the currency-converter rate core (`src/app.py`)

Shallow embedding of the rate derivation and caching core of the FastAPI
currency converter:

* Python `Decimal` values are modelled as exact rationals `ℚ`.  The source
  sets a 28-significant-digit decimal context; the claims under scrutiny are
  stated up to that rounding, and hold exactly over `ℚ`.
* Python `Dict[str, Decimal]` is modelled as an association list
  `List (String × ℚ)` in which a *fresh write prepends* a binding and lookup
  returns the *first* match, so the most recent write wins — exactly the
  observable lookup/membership semantics of a Python dict.  (Python dict
  membership `k in d` succeeds exactly when indexing `d[k]` would, which is
  exactly when `dlookup` returns `some`.)
* Raised exceptions are modelled with `Except PyErr`:
  `HTTPException(status, detail)` and `KeyError(key)` are the two exception
  shapes the core can raise.
* The network fetch `_fetch_rates` is I/O against Binance; its outcome is
  passed to the cached getter as an explicit `Except PyErr` oracle argument.
* `datetime.utcnow()` is called twice in `_get_rates_cached` (once for the
  expiry comparison, once to stamp the new expiry); the two observed instants
  are explicit rational arguments `t1` and `t2`.  `CACHE_TTL` is read once at
  startup from the environment (default 300 s) and is passed as the `ttl`
  argument.
* The HTTP layer's final `float(...)` JSON serialization is outside the
  specified core; conversion results carry the exact `Decimal` (here `ℚ`)
  amount produced by `round_number`.
-/

deriving instance DecidableEq for Except

namespace CurrencyConverter

/-- Exceptions the core can raise: FastAPI's `HTTPException(status_code, detail)`
and Python's `KeyError(key)` from indexing a dict with an absent key. -/
inductive PyErr where
  | httpException (status : Nat) (detail : String)
  | keyError (key : String)
deriving DecidableEq, Repr

/-- A Python `Dict[str, Decimal]`: bindings with the most recent write first. -/
abbrev Table := List (String × ℚ)

/-- Dict lookup `d[k]` / membership `k in d`: first (most recent) binding wins. -/
def dlookup (k : String) : Table → Option ℚ
  | [] => none
  | (k2, v) :: rest => if k = k2 then some v else dlookup k rest

/-- The keys of a dict, for membership statements. -/
def dkeys (m : Table) : List String := m.map Prod.fst

/-- Python `{**a, **b}`: a flat dict where `b`'s bindings win over `a`'s.
With first-match lookup, placing `b` in front achieves exactly that. -/
def dmerge (a b : Table) : Table := b ++ a

/-- Python's `s.startswith(pre)`: `pre` is a prefix of the character
sequence of `s`. -/
def pyStartsWith (s pre : String) : Bool := pre.data.isPrefixOf s.data

/-- The loop of `_build_cross_rates` (src/app.py lines 82–89): for every
symbol other than `BTCUSDT` that starts with `BTC`, take `fiat = symbol[3:]`
and write `cross_rates[fiat + "USD"] = btc_usd / price` and then
`cross_rates["USD" + fiat] = price / btc_usd`.  Writes prepend, so the later
`USD{fiat}` write sits in front of the `{fiat}USD` one. -/
def crossLoop (btc_usd : ℚ) : Table → Table → Table
  | acc, [] => acc
  | acc, (symbol, price) :: rest =>
    if symbol = "BTCUSDT" ∨ pyStartsWith symbol "BTC" = false then
      crossLoop btc_usd acc rest
    else
      crossLoop btc_usd
        (("USD" ++ symbol.drop 3, price / btc_usd) ::
          (symbol.drop 3 ++ "USD", btc_usd / price) :: acc) rest

/-- `_build_cross_rates` (src/app.py lines 74–97).  Fails with
`HTTPException 502 "BTCUSDT price missing"` when `"BTCUSDT" not in prices`;
otherwise runs the loop, then reads `cross_rates["EURUSD"]` and
`cross_rates["USDGBP"]` to store `EURGBP` (a `KeyError` propagates if either
is absent), and finally stores `GBPEUR = 1 / cross_rates["EURGBP"]`, reading
back the `EURGBP` value just written. -/
def build_cross_rates (prices : Table) : Except PyErr Table :=
  match dlookup "BTCUSDT" prices with
  | none => .error (.httpException 502 "BTCUSDT price missing")
  | some btc_usd =>
    let cross_rates := crossLoop btc_usd [] prices
    match dlookup "EURUSD" cross_rates with
    | none => .error (.keyError "EURUSD")
    | some eurusd =>
      match dlookup "USDGBP" cross_rates with
      | none => .error (.keyError "USDGBP")
      | some usdgbp =>
        let eurgbp := eurusd * usdgbp
        .ok (("GBPEUR", 1 / eurgbp) :: ("EURGBP", eurgbp) :: cross_rates)

/-- `round_number` (src/app.py lines 100–102): `Decimal.quantize` to two
decimal places with `ROUND_HALF_UP` — nearest value with two decimals, ties
away from zero. -/
def round_number (x : ℚ) : ℚ :=
  if x < 0 then -(((⌊-x * 100 + 1 / 2⌋ : ℤ) : ℚ) / 100)
  else ((⌊x * 100 + 1 / 2⌋ : ℤ) : ℚ) / 100

/-- The cache state: module globals `_cache` (dict, initially empty) and
`_cache_expiry` (`datetime | None`, initially `None`). -/
structure CacheState where
  cache : Table
  expiry : Option ℚ
deriving DecidableEq, Repr

/-- The initial state at process start. -/
def initialState : CacheState := ⟨[], none⟩

/-- The guard of `_get_rates_cached` (line 56):
`_cache and _cache_expiry and datetime.utcnow() < _cache_expiry` —
a non-empty dict is truthy, `None` is falsy. -/
def isFresh (s : CacheState) (t1 : ℚ) : Bool :=
  !s.cache.isEmpty &&
    (match s.expiry with
     | some e => decide (t1 < e)
     | none => false)

/-- `_get_rates_cached` (src/app.py lines 50–68).  `fetch` is the outcome of
the awaited `_fetch_rates()` network call; `t1` and `t2` are the two
`datetime.utcnow()` instants (guard, new-expiry stamp); `ttl` is `CACHE_TTL`.
Returns the produced table (or the propagated exception) together with the
post-call globals. -/
def get_rates_cached (fetch : Except PyErr Table) (ttl t1 t2 : ℚ)
    (s : CacheState) : Except PyErr Table × CacheState :=
  if isFresh s t1 then
    (.ok s.cache, s)
  else
    match fetch with
    | .error e => (.error e, s)
    | .ok prices =>
      match build_cross_rates prices with
      | .error e => (.error e, s)
      | .ok cross_rates =>
        let newCache := dmerge prices cross_rates
        (.ok newCache, { cache := newCache, expiry := some (t2 + ttl) })

/-- The request currencies: `Literal["USD", "EUR", "GBP"]` — FastAPI rejects
anything else before `convert` runs. -/
inductive Currency where
  | USD
  | EUR
  | GBP
deriving DecidableEq, Repr

/-- The currency's three-letter code, as interpolated into pair keys. -/
def Currency.code : Currency → String
  | .USD => "USD"
  | .EUR => "EUR"
  | .GBP => "GBP"

/-- The body of `convert` (src/app.py lines 108–136) returns
`{"quantity": ..., "ccy": ccy_to}`. -/
structure ConvertResult where
  quantity : ℚ
  ccy : Currency
deriving DecidableEq, Repr

/-- The `except` clauses of `convert` (lines 138–141): an `HTTPException` is
re-raised unchanged; any other exception `e` becomes
`HTTPException(500, f"Unexpected error: {e}")` (a `KeyError` prints as its
quoted key). -/
def wrapError : PyErr → PyErr
  | .httpException status detail => .httpException status detail
  | .keyError k =>
      .httpException 500 ("Unexpected error: " ++ "'" ++ k ++ "'")

/-- Rate resolution inside `convert` (src/app.py lines 118–133): identity,
then the direct pair key, then the reciprocal pair key, else
`HTTPException(400, f"Unsupported pair {pair}")`. -/
def resolveRate (cache : Table) (ccy_from ccy_to : Currency) : Except PyErr ℚ :=
  let pair := ccy_from.code ++ ccy_to.code
  if ccy_from = ccy_to then
    .ok 1
  else
    match dlookup pair cache with
    | some r => .ok r
    | none =>
      let reverse := ccy_to.code ++ ccy_from.code
      match dlookup reverse cache with
      | some r => .ok (1 / r)
      | none => .error (.httpException 400 ("Unsupported pair " ++ pair))

/-- The `/convert` endpoint (src/app.py lines 108–141): awaits the cached
getter, resolves the rate, rounds `quantity * rate` once, and maps any raised
exception through the boundary `except` clauses.  FastAPI has already
validated `quantity > 0` and the currency literals.  Returns the response (or
error) and the post-call cache state. -/
def convert (fetch : Except PyErr Table) (ttl t1 t2 : ℚ) (s : CacheState)
    (ccy_from ccy_to : Currency) (quantity : ℚ) :
    Except PyErr ConvertResult × CacheState :=
  match get_rates_cached fetch ttl t1 t2 s with
  | (.error e, s2) => (.error (wrapError e), s2)
  | (.ok cache, s2) =>
    match resolveRate cache ccy_from ccy_to with
    | .error e => (.error (wrapError e), s2)
    | .ok rate =>
      (.ok ⟨round_number (quantity * rate), ccy_to⟩, s2)

/-- The price table `_fetch_rates` produces on success (src/app.py lines
33–47): the three symbols `BTCUSDT`, `BTCEUR`, `BTCGBP` in request order,
with their fetched prices. -/
def fetchedPrices (u e g : ℚ) : Table :=
  [("BTCUSDT", u), ("BTCEUR", e), ("BTCGBP", g)]

/-- The table `_build_cross_rates` derives from the fetched prices
`u = BTCUSDT`, `e = BTCEUR`, `g = BTCGBP`, bindings most-recent-first. -/
def stdTable (u e g : ℚ) : Table :=
  [("GBPEUR", 1 / (u / e * (g / u))), ("EURGBP", u / e * (g / u)),
   ("USDGBP", g / u), ("GBPUSD", u / g),
   ("USDEUR", e / u), ("EURUSD", u / e)]

lemma pyStartsWith_eur : pyStartsWith "BTCEUR" "BTC" = true := rfl

lemma pyStartsWith_gbp : pyStartsWith "BTCGBP" "BTC" = true := rfl

lemma drop_eur : ("BTCEUR".drop 3) = "EUR" := rfl

lemma drop_gbp : ("BTCGBP".drop 3) = "GBP" := rfl

lemma append_eur_gbp : "EUR" ++ "GBP" = "EURGBP" := rfl

lemma append_gbp_eur : "GBP" ++ "EUR" = "GBPEUR" := rfl

lemma append_usd_eur : "USD" ++ "EUR" = "USDEUR" := rfl

lemma append_eur_usd : "EUR" ++ "USD" = "EURUSD" := rfl

lemma append_usd_gbp : "USD" ++ "GBP" = "USDGBP" := rfl

lemma append_gbp_usd : "GBP" ++ "USD" = "GBPUSD" := rfl

lemma dkeys_nil : dkeys [] = [] := rfl

lemma dkeys_cons (s : String) (v : ℚ) (l : Table) :
    dkeys ((s, v) :: l) = s :: dkeys l := rfl

/-- In a dict (distinct keys), lookup returns the stored binding. -/
lemma dlookup_eq_of_mem_nodup {k : String} {v : ℚ} :
    ∀ {l : Table}, (dkeys l).Nodup → (k, v) ∈ l → dlookup k l = some v := by
  intro l
  induction l with
  | nil => intro _ h; cases h
  | cons p rest ih =>
    intro hnd hmem
    obtain ⟨k2, v2⟩ := p
    rw [dkeys_cons, List.nodup_cons] at hnd
    rcases List.mem_cons.mp hmem with h | h
    · rw [Prod.mk.injEq] at h
      obtain ⟨rfl, rfl⟩ := h
      simp [dlookup]
    · have hk : k ≠ k2 := by
        rintro rfl
        exact hnd.1 (List.mem_map_of_mem Prod.fst h)
      rw [dlookup, if_neg hk]
      exact ih hnd.2 h

lemma dlookup_eq_none_of_not_mem {k : String} :
    ∀ {l : Table}, k ∉ dkeys l → dlookup k l = none := by
  intro l
  induction l with
  | nil => intro _; rfl
  | cons p rest ih =>
    intro hk
    obtain ⟨k2, v2⟩ := p
    rw [dkeys_cons, List.mem_cons] at hk
    push_neg at hk
    rw [dlookup, if_neg hk.1]
    exact ih hk.2

lemma mem_dkeys_of_dlookup_eq_some {k : String} {v : ℚ} :
    ∀ {l : Table}, dlookup k l = some v → k ∈ dkeys l := by
  intro l
  induction l with
  | nil => intro h; cases h
  | cons p rest ih =>
    intro h
    obtain ⟨k2, v2⟩ := p
    rw [dkeys_cons, List.mem_cons]
    by_cases hk : k = k2
    · exact Or.inl hk
    · rw [dlookup, if_neg hk] at h
      exact Or.inr (ih h)

lemma dlookup_append_of_some {k : String} {v : ℚ} :
    ∀ {a : Table} (b : Table), dlookup k a = some v →
      dlookup k (a ++ b) = some v := by
  intro a
  induction a with
  | nil => intro _ h; cases h
  | cons p rest ih =>
    intro b h
    obtain ⟨k2, v2⟩ := p
    by_cases hk : k = k2
    · rw [dlookup, if_pos hk] at h
      rw [List.cons_append, dlookup, if_pos hk]
      exact h
    · rw [dlookup, if_neg hk] at h
      rw [List.cons_append, dlookup, if_neg hk]
      exact ih b h

lemma dlookup_append_of_none {k : String} :
    ∀ {a : Table} (b : Table), dlookup k a = none →
      dlookup k (a ++ b) = dlookup k b := by
  intro a
  induction a with
  | nil => intro _ _; rfl
  | cons p rest ih =>
    intro b h
    obtain ⟨k2, v2⟩ := p
    by_cases hk : k = k2
    · rw [dlookup, if_pos hk] at h
      cases h
    · rw [dlookup, if_neg hk] at h
      rw [List.cons_append, dlookup, if_neg hk]
      exact ih b h

/-- A hypothesis shape: every symbol of a price table is one of the three
symbols `_fetch_rates` requests. -/
def OnlyFetchedSymbols (l : Table) : Prop :=
  ∀ p ∈ l, p.1 = "BTCUSDT" ∨ p.1 = "BTCEUR" ∨ p.1 = "BTCGBP"

instance (l : Table) : Decidable (OnlyFetchedSymbols l) :=
  inferInstanceAs (Decidable
    (∀ p ∈ l, p.1 = "BTCUSDT" ∨ p.1 = "BTCEUR" ∨ p.1 = "BTCGBP"))

lemma onlyFetchedSymbols_tail {p : String × ℚ} {l : Table}
    (h : OnlyFetchedSymbols (p :: l)) : OnlyFetchedSymbols l :=
  fun q hq => h q (List.mem_cons_of_mem p hq)

/-- Keys the loop never writes keep their `acc` binding: an entry for
`BTCUSDT` is skipped, `BTCEUR` writes only `EURUSD`/`USDEUR`, and `BTCGBP`
writes only `GBPUSD`/`USDGBP`. -/
lemma crossLoop_lookup_untouched (b : ℚ) (k : String) :
    ∀ (l : Table), OnlyFetchedSymbols l →
      ("BTCEUR" ∈ dkeys l → k ≠ "EURUSD" ∧ k ≠ "USDEUR") →
      ("BTCGBP" ∈ dkeys l → k ≠ "GBPUSD" ∧ k ≠ "USDGBP") →
      ∀ (acc : Table), dlookup k (crossLoop b acc l) = dlookup k acc := by
  intro l
  induction l with
  | nil => intro _ _ _ acc; rfl
  | cons p rest ih =>
    intro h3 hE hG acc
    obtain ⟨sym, price⟩ := p
    have hsym := h3 (sym, price) (List.mem_cons_self _ _)
    have hE' : "BTCEUR" ∈ dkeys rest → k ≠ "EURUSD" ∧ k ≠ "USDEUR" := by
      intro hm
      exact hE (by rw [dkeys_cons]; exact List.mem_cons_of_mem _ hm)
    have hG' : "BTCGBP" ∈ dkeys rest → k ≠ "GBPUSD" ∧ k ≠ "USDGBP" := by
      intro hm
      exact hG (by rw [dkeys_cons]; exact List.mem_cons_of_mem _ hm)
    rcases hsym with hs | hs | hs
    all_goals simp only at hs
    all_goals subst hs
    · rw [crossLoop, if_pos (Or.inl rfl)]
      exact ih (onlyFetchedSymbols_tail h3) hE' hG' acc
    · have hk := hE (by rw [dkeys_cons]; exact List.mem_cons_self _ _)
      rw [crossLoop, if_neg (by decide), drop_eur, append_usd_eur, append_eur_usd]
      rw [ih (onlyFetchedSymbols_tail h3) hE' hG']
      rw [dlookup, if_neg hk.2, dlookup, if_neg hk.1]
    · have hk := hG (by rw [dkeys_cons]; exact List.mem_cons_self _ _)
      rw [crossLoop, if_neg (by decide), drop_gbp, append_usd_gbp, append_gbp_usd]
      rw [ih (onlyFetchedSymbols_tail h3) hE' hG']
      rw [dlookup, if_neg hk.2, dlookup, if_neg hk.1]

/-- The `BTCEUR` entry of the price table yields the `EURUSD` and `USDEUR`
bindings `btc_usd / btc_eur` and `btc_eur / btc_usd` in the loop's output. -/
lemma crossLoop_lookup_eur (b e : ℚ) :
    ∀ (l : Table), OnlyFetchedSymbols l → (dkeys l).Nodup →
      ("BTCEUR", e) ∈ l →
      ∀ (acc : Table),
        dlookup "EURUSD" (crossLoop b acc l) = some (b / e) ∧
        dlookup "USDEUR" (crossLoop b acc l) = some (e / b) := by
  intro l
  induction l with
  | nil => intro _ _ h; cases h
  | cons p rest ih =>
    intro h3 hnd hmem acc
    obtain ⟨sym, price⟩ := p
    rw [dkeys_cons, List.nodup_cons] at hnd
    rcases List.mem_cons.mp hmem with h | h
    · rw [Prod.mk.injEq] at h
      obtain ⟨rfl, rfl⟩ := h.symm.imp Eq.symm Eq.symm
      rw [crossLoop, if_neg (by decide), drop_eur, append_usd_eur, append_eur_usd]
      have huntouched := fun k hk1 hk2 =>
        crossLoop_lookup_untouched b k rest (onlyFetchedSymbols_tail h3)
          (fun hm => absurd hm hnd.1) (fun _ => ⟨hk1, hk2⟩)
      constructor
      · rw [huntouched "EURUSD" (by decide) (by decide)]
        rw [dlookup, if_neg (by decide), dlookup, if_pos rfl]
      · rw [huntouched "USDEUR" (by decide) (by decide)]
        rw [dlookup, if_pos rfl]
    · have hsym := h3 (sym, price) (List.mem_cons_self _ _)
      have hne : sym ≠ "BTCEUR" := by
        rintro rfl
        exact hnd.1 (List.mem_map_of_mem Prod.fst h)
      rcases hsym with hs | hs | hs
      all_goals simp only at hs
      all_goals subst hs
      · rw [crossLoop, if_pos (Or.inl rfl)]
        exact ih (onlyFetchedSymbols_tail h3) hnd.2 h acc
      · exact absurd rfl hne
      · rw [crossLoop, if_neg (by decide)]
        exact ih (onlyFetchedSymbols_tail h3) hnd.2 h _

/-- The `BTCGBP` entry of the price table yields the `GBPUSD` and `USDGBP`
bindings `btc_usd / btc_gbp` and `btc_gbp / btc_usd` in the loop's output. -/
lemma crossLoop_lookup_gbp (b g : ℚ) :
    ∀ (l : Table), OnlyFetchedSymbols l → (dkeys l).Nodup →
      ("BTCGBP", g) ∈ l →
      ∀ (acc : Table),
        dlookup "GBPUSD" (crossLoop b acc l) = some (b / g) ∧
        dlookup "USDGBP" (crossLoop b acc l) = some (g / b) := by
  intro l
  induction l with
  | nil => intro _ _ h; cases h
  | cons p rest ih =>
    intro h3 hnd hmem acc
    obtain ⟨sym, price⟩ := p
    rw [dkeys_cons, List.nodup_cons] at hnd
    rcases List.mem_cons.mp hmem with h | h
    · rw [Prod.mk.injEq] at h
      obtain ⟨rfl, rfl⟩ := h.symm.imp Eq.symm Eq.symm
      rw [crossLoop, if_neg (by decide), drop_gbp, append_usd_gbp, append_gbp_usd]
      have huntouched := fun k hk1 hk2 =>
        crossLoop_lookup_untouched b k rest (onlyFetchedSymbols_tail h3)
          (fun _ => ⟨hk1, hk2⟩) (fun hm => absurd hm hnd.1)
      constructor
      · rw [huntouched "GBPUSD" (by decide) (by decide)]
        rw [dlookup, if_neg (by decide), dlookup, if_pos rfl]
      · rw [huntouched "USDGBP" (by decide) (by decide)]
        rw [dlookup, if_pos rfl]
    · have hsym := h3 (sym, price) (List.mem_cons_self _ _)
      have hne : sym ≠ "BTCGBP" := by
        rintro rfl
        exact hnd.1 (List.mem_map_of_mem Prod.fst h)
      rcases hsym with hs | hs | hs
      all_goals simp only at hs
      all_goals subst hs
      · rw [crossLoop, if_pos (Or.inl rfl)]
        exact ih (onlyFetchedSymbols_tail h3) hnd.2 h acc
      · rw [crossLoop, if_neg (by decide)]
        exact ih (onlyFetchedSymbols_tail h3) hnd.2 h _
      · exact absurd rfl hne

/-- On the price table actually fetched from Binance, `_build_cross_rates`
computes exactly `stdTable`. -/
lemma build_cross_rates_fetched (u e g : ℚ) :
    build_cross_rates (fetchedPrices u e g) = .ok (stdTable u e g) := by
  simp [build_cross_rates, fetchedPrices, crossLoop, dlookup, stdTable,
    pyStartsWith_eur, pyStartsWith_gbp, drop_eur, drop_gbp,
    append_usd_eur, append_eur_usd, append_usd_gbp, append_gbp_usd]

/-- `_build_cross_rates` on any price dict holding the three fetched
symbols: the guard lookup finds `BTCUSDT`, the two post-loop reads find the
`EURUSD` and `USDGBP` bindings, and the `EURGBP`/`GBPEUR` writes go in
front. -/
lemma build_cross_rates_general {prices : Table} {u e g : ℚ}
    (h3 : OnlyFetchedSymbols prices) (hnd : (dkeys prices).Nodup)
    (hu : ("BTCUSDT", u) ∈ prices) (he : ("BTCEUR", e) ∈ prices)
    (hg : ("BTCGBP", g) ∈ prices) :
    build_cross_rates prices =
      .ok (("GBPEUR", 1 / (u / e * (g / u))) :: ("EURGBP", u / e * (g / u)) ::
        crossLoop u [] prices) := by
  have hlu : dlookup "BTCUSDT" prices = some u := dlookup_eq_of_mem_nodup hnd hu
  have hEUR := crossLoop_lookup_eur u e prices h3 hnd he []
  have hGBP := crossLoop_lookup_gbp u g prices h3 hnd hg []
  simp only [build_cross_rates, hlu, hEUR.1, hGBP.2]

/-- All six cross-rate lookups on the output of `_build_cross_rates`. -/
lemma build_cross_rates_lookups {prices tbl : Table} {u e g : ℚ}
    (h3 : OnlyFetchedSymbols prices) (hnd : (dkeys prices).Nodup)
    (hu : ("BTCUSDT", u) ∈ prices) (he : ("BTCEUR", e) ∈ prices)
    (hg : ("BTCGBP", g) ∈ prices)
    (htbl : build_cross_rates prices = .ok tbl) :
    dlookup "EURUSD" tbl = some (u / e) ∧
    dlookup "USDEUR" tbl = some (e / u) ∧
    dlookup "GBPUSD" tbl = some (u / g) ∧
    dlookup "USDGBP" tbl = some (g / u) ∧
    dlookup "EURGBP" tbl = some (u / e * (g / u)) ∧
    dlookup "GBPEUR" tbl = some (1 / (u / e * (g / u))) := by
  rw [build_cross_rates_general h3 hnd hu he hg] at htbl
  obtain rfl := Except.ok.inj htbl
  have hEUR := crossLoop_lookup_eur u e prices h3 hnd he []
  have hGBP := crossLoop_lookup_gbp u g prices h3 hnd hg []
  refine ⟨?_, ?_, ?_, ?_, ?_, ?_⟩
  · rw [dlookup, if_neg (by decide), dlookup, if_neg (by decide)]
    exact hEUR.1
  · rw [dlookup, if_neg (by decide), dlookup, if_neg (by decide)]
    exact hEUR.2
  · rw [dlookup, if_neg (by decide), dlookup, if_neg (by decide)]
    exact hGBP.1
  · rw [dlookup, if_neg (by decide), dlookup, if_neg (by decide)]
    exact hGBP.2
  · rw [dlookup, if_neg (by decide), dlookup, if_pos rfl]
  · rw [dlookup, if_pos rfl]

/-- C1: for every bridge-price dict holding positive prices for `BTCUSDT`,
`BTCEUR` and `BTCGBP` (the symbols `_fetch_rates` requests),
`_build_cross_rates` succeeds and its table carries exactly the pivot
formulas: `table[F + "USD"] = P[USD] / P[F]` and
`table["USD" + F] = P[F] / P[USD]` for each non-reference fiat `F`, and the
non-reference pair is composed through the reference:
`table["EURGBP"] = table["EURUSD"] * table["USDGBP"]` and
`table["GBPEUR"] = 1 / table["EURGBP"]`. -/
theorem build_cross_rates_pivot_formulas {prices : Table} {u e g : ℚ}
    (h3 : OnlyFetchedSymbols prices) (hnd : (dkeys prices).Nodup)
    (hu : ("BTCUSDT", u) ∈ prices) (he : ("BTCEUR", e) ∈ prices)
    (hg : ("BTCGBP", g) ∈ prices)
    (hupos : 0 < u) (hepos : 0 < e) (hgpos : 0 < g) :
    ∃ tbl, build_cross_rates prices = .ok tbl ∧
      dlookup "EURUSD" tbl = some (u / e) ∧
      dlookup "USDEUR" tbl = some (e / u) ∧
      dlookup "GBPUSD" tbl = some (u / g) ∧
      dlookup "USDGBP" tbl = some (g / u) ∧
      dlookup "EURGBP" tbl = some (u / e * (g / u)) ∧
      dlookup "GBPEUR" tbl = some (1 / (u / e * (g / u))) := by
  refine ⟨_, build_cross_rates_general h3 hnd hu he hg, ?_⟩
  exact build_cross_rates_lookups h3 hnd hu he hg
    (build_cross_rates_general h3 hnd hu he hg)

/-- C1 witness: the seed prices `100000, 90000, 80000` in fetch order. -/
theorem build_cross_rates_pivot_formulas_witness :
    OnlyFetchedSymbols (fetchedPrices 100000 90000 80000) ∧
    (dkeys (fetchedPrices 100000 90000 80000)).Nodup ∧
    (∃ tbl, build_cross_rates (fetchedPrices 100000 90000 80000) = .ok tbl ∧
      dlookup "EURUSD" tbl = some ((100000 : ℚ) / 90000) ∧
      dlookup "USDEUR" tbl = some ((90000 : ℚ) / 100000) ∧
      dlookup "GBPUSD" tbl = some ((100000 : ℚ) / 80000) ∧
      dlookup "USDGBP" tbl = some ((80000 : ℚ) / 100000) ∧
      dlookup "EURGBP" tbl = some ((100000 : ℚ) / 90000 * (80000 / 100000)) ∧
      dlookup "GBPEUR" tbl = some (1 / ((100000 : ℚ) / 90000 * (80000 / 100000)))) :=
  ⟨by decide, by decide,
    build_cross_rates_pivot_formulas (by decide) (by decide)
      (by decide) (by decide) (by decide) (by decide) (by decide) (by decide)⟩

/-- The truthiness guard of line 56, propositionally: non-empty cache dict,
non-`None` expiry, and current time strictly before it. -/
lemma isFresh_iff {s : CacheState} {t1 : ℚ} :
    isFresh s t1 = true ↔ s.cache ≠ [] ∧ ∃ ex, s.expiry = some ex ∧ t1 < ex := by
  obtain ⟨c, x⟩ := s
  cases x with
  | none => simp [isFresh]
  | some ex => simp [isFresh, List.isEmpty_iff]

lemma get_rates_cached_fresh {s : CacheState} {t1 : ℚ}
    (h : isFresh s t1 = true) (fetch : Except PyErr Table) (ttl t2 : ℚ) :
    get_rates_cached fetch ttl t1 t2 s = (.ok s.cache, s) := by
  rw [get_rates_cached.eq_def, if_pos h]

lemma get_rates_cached_stale {s : CacheState} {t1 : ℚ}
    (h : isFresh s t1 = false) (fetch : Except PyErr Table) (ttl t2 : ℚ) :
    get_rates_cached fetch ttl t1 t2 s =
      match fetch with
      | .error e => (.error e, s)
      | .ok prices =>
        match build_cross_rates prices with
        | .error e => (.error e, s)
        | .ok cross_rates =>
          (.ok (dmerge prices cross_rates),
           { cache := dmerge prices cross_rates, expiry := some (t2 + ttl) }) := by
  rw [get_rates_cached.eq_def, if_neg (by simp [h])]

lemma isFresh_false_of_stale {s : CacheState} {t1 : ℚ}
    (hstale : ¬ (s.cache ≠ [] ∧ ∃ ex, s.expiry = some ex ∧ t1 < ex)) :
    isFresh s t1 = false :=
  Bool.eq_false_iff.mpr fun h => hstale (isFresh_iff.mp h)

lemma get_rates_cached_stale_refresh_ok {fetch : Except PyErr Table}
    {prices tbl : Table} {ttl t1 t2 : ℚ} {s : CacheState}
    (hf : isFresh s t1 = false) (hfetch : fetch = .ok prices)
    (htbl : build_cross_rates prices = .ok tbl) :
    get_rates_cached fetch ttl t1 t2 s =
      (.ok (dmerge prices tbl),
       { cache := dmerge prices tbl, expiry := some (t2 + ttl) }) := by
  rw [get_rates_cached_stale hf fetch ttl t2, hfetch]
  simp only [htbl]

lemma get_rates_cached_stale_fetch_error {fetch : Except PyErr Table}
    {err : PyErr} {ttl t1 t2 : ℚ} {s : CacheState}
    (hf : isFresh s t1 = false) (herr : fetch = .error err) :
    get_rates_cached fetch ttl t1 t2 s = (.error err, s) := by
  rw [get_rates_cached_stale hf fetch ttl t2, herr]

lemma get_rates_cached_stale_build_error {fetch : Except PyErr Table}
    {prices : Table} {err : PyErr} {ttl t1 t2 : ℚ} {s : CacheState}
    (hf : isFresh s t1 = false) (hfetch : fetch = .ok prices)
    (hbuild : build_cross_rates prices = .error err) :
    get_rates_cached fetch ttl t1 t2 s = (.error err, s) := by
  rw [get_rates_cached_stale hf fetch ttl t2, hfetch]
  simp only [hbuild]

/-- C3: a `get` while the cache dict is non-empty and the time is strictly
before the stored expiry returns the cached table with no state change and
performs no fetch (the result is the same for every fetch outcome);
otherwise, given that the single fetch-and-derive cycle succeeds, the merged
flat table is stored with expiry `now + TTL` and returned. -/
theorem get_rates_cached_contract (fetch : Except PyErr Table)
    (ttl t1 t2 : ℚ) (s : CacheState) :
    (s.cache ≠ [] → ∀ ex, s.expiry = some ex → t1 < ex →
      get_rates_cached fetch ttl t1 t2 s = (.ok s.cache, s)) ∧
    (¬ (s.cache ≠ [] ∧ ∃ ex, s.expiry = some ex ∧ t1 < ex) →
      ∀ prices tbl, fetch = .ok prices → build_cross_rates prices = .ok tbl →
      get_rates_cached fetch ttl t1 t2 s =
        (.ok (dmerge prices tbl),
         { cache := dmerge prices tbl, expiry := some (t2 + ttl) })) := by
  constructor
  · intro hc ex hex hlt
    exact get_rates_cached_fresh (isFresh_iff.mpr ⟨hc, ex, hex, hlt⟩) fetch ttl t2
  · intro hstale prices tbl hfetch htbl
    exact get_rates_cached_stale_refresh_ok (isFresh_false_of_stale hstale)
      hfetch htbl

/-- C3 witness: a fresh cache is served as-is; an empty cache is refreshed
from the seed prices and stamped with expiry `7 + 300`. -/
theorem get_rates_cached_contract_witness :
    ((⟨[("EURUSD", (10 : ℚ) / 9)], some 5⟩ : CacheState).cache ≠ [] ∧
      (⟨[("EURUSD", (10 : ℚ) / 9)], some 5⟩ : CacheState).expiry = some 5 ∧
      (3 : ℚ) < 5 ∧
      get_rates_cached (.error (.httpException 502 "Binance error for BTCUSDT"))
          300 3 4 ⟨[("EURUSD", (10 : ℚ) / 9)], some 5⟩ =
        (.ok [("EURUSD", (10 : ℚ) / 9)], ⟨[("EURUSD", (10 : ℚ) / 9)], some 5⟩)) ∧
    (¬ ((initialState.cache ≠ [] ∧ ∃ ex, initialState.expiry = some ex ∧ (3 : ℚ) < ex)) ∧
      (.ok (fetchedPrices 100000 90000 80000) : Except PyErr Table) =
        .ok (fetchedPrices 100000 90000 80000) ∧
      build_cross_rates (fetchedPrices 100000 90000 80000) =
        .ok (stdTable 100000 90000 80000) ∧
      get_rates_cached (.ok (fetchedPrices 100000 90000 80000)) 300 3 7 initialState =
        (.ok (dmerge (fetchedPrices 100000 90000 80000) (stdTable 100000 90000 80000)),
         { cache := dmerge (fetchedPrices 100000 90000 80000) (stdTable 100000 90000 80000),
           expiry := some (7 + 300) })) := by
  constructor
  · exact ⟨by decide, rfl, by decide,
      (get_rates_cached_contract _ 300 3 4 _).1 (by decide) 5 rfl (by decide)⟩
  · refine ⟨by simp [initialState], rfl, build_cross_rates_fetched 100000 90000 80000, ?_⟩
    exact (get_rates_cached_contract _ 300 3 7 initialState).2
      (by simp [initialState]) _ _ rfl (build_cross_rates_fetched 100000 90000 80000)

/-- C4: when the guard forces a refresh and the refresh fails — the fetch
raises, or `_build_cross_rates` raises — the cache state (table and expiry
alike) is returned unchanged and the failure propagates to the caller. -/
theorem get_rates_cached_failure_keeps_state (fetch : Except PyErr Table)
    (ttl t1 t2 : ℚ) (s : CacheState)
    (hstale : ¬ (s.cache ≠ [] ∧ ∃ ex, s.expiry = some ex ∧ t1 < ex)) :
    (∀ err, fetch = .error err →
      get_rates_cached fetch ttl t1 t2 s = (.error err, s)) ∧
    (∀ prices err, fetch = .ok prices → build_cross_rates prices = .error err →
      get_rates_cached fetch ttl t1 t2 s = (.error err, s)) := by
  constructor
  · intro err herr
    exact get_rates_cached_stale_fetch_error (isFresh_false_of_stale hstale) herr
  · intro prices err hfetch hbuild
    exact get_rates_cached_stale_build_error (isFresh_false_of_stale hstale)
      hfetch hbuild

/-- C4 witness: on the empty initial cache, a failed fetch and a failed
derivation (missing `BTCUSDT`) both leave the state untouched. -/
theorem get_rates_cached_failure_keeps_state_witness :
    (¬ ((initialState.cache ≠ [] ∧ ∃ ex, initialState.expiry = some ex ∧ (3 : ℚ) < ex))) ∧
    ((.error (.httpException 502 "Binance error for BTCEUR") : Except PyErr Table) =
        .error (.httpException 502 "Binance error for BTCEUR") ∧
      get_rates_cached (.error (.httpException 502 "Binance error for BTCEUR"))
          300 3 7 initialState =
        (.error (.httpException 502 "Binance error for BTCEUR"), initialState)) ∧
    ((.ok [(("BTCEUR" : String), (90000 : ℚ))] : Except PyErr Table) =
        .ok [(("BTCEUR" : String), (90000 : ℚ))] ∧
      build_cross_rates [(("BTCEUR" : String), (90000 : ℚ))] =
        .error (.httpException 502 "BTCUSDT price missing") ∧
      get_rates_cached (.ok [(("BTCEUR" : String), (90000 : ℚ))]) 300 3 7 initialState =
        (.error (.httpException 502 "BTCUSDT price missing"), initialState)) := by
  refine ⟨by simp [initialState], ⟨rfl, ?_⟩, ⟨rfl, by decide, ?_⟩⟩
  · exact (get_rates_cached_failure_keeps_state _ 300 3 7 initialState
      (by simp [initialState])).1 _ rfl
  · exact (get_rates_cached_failure_keeps_state _ 300 3 7 initialState
      (by simp [initialState])).2 _ _ rfl (by decide)

/-- C8: when the reference price `BTCUSDT` is absent from the input dict,
`_build_cross_rates` fails immediately with the upstream-dependency error
`HTTPException(502, "BTCUSDT price missing")`, deriving no cross-rate. -/
theorem build_cross_rates_missing_reference {prices : Table}
    (h : "BTCUSDT" ∉ dkeys prices) :
    build_cross_rates prices =
      .error (.httpException 502 "BTCUSDT price missing") := by
  rw [build_cross_rates, dlookup_eq_none_of_not_mem h]

/-- C8 witness: a price dict with only `BTCEUR` and `BTCGBP`. -/
theorem build_cross_rates_missing_reference_witness :
    "BTCUSDT" ∉ dkeys [(("BTCEUR" : String), (90000 : ℚ)), (("BTCGBP" : String), 80000)] ∧
    build_cross_rates [(("BTCEUR" : String), (90000 : ℚ)), (("BTCGBP" : String), 80000)] =
      .error (.httpException 502 "BTCUSDT price missing") :=
  ⟨by decide, build_cross_rates_missing_reference (by decide)⟩

lemma resolveRate_identity (cache : Table) (f : Currency) :
    resolveRate cache f f = .ok 1 := by
  simp [resolveRate]

lemma resolveRate_direct {cache : Table} {f t : Currency} {r : ℚ}
    (hne : f ≠ t) (hl : dlookup (f.code ++ t.code) cache = some r) :
    resolveRate cache f t = .ok r := by
  simp only [resolveRate]
  rw [if_neg hne, hl]

lemma resolveRate_reciprocal {cache : Table} {f t : Currency} {r : ℚ}
    (hne : f ≠ t) (h1 : dlookup (f.code ++ t.code) cache = none)
    (h2 : dlookup (t.code ++ f.code) cache = some r) :
    resolveRate cache f t = .ok (1 / r) := by
  simp only [resolveRate]
  rw [if_neg hne, h1, h2]

lemma resolveRate_unsupported {cache : Table} {f t : Currency}
    (hne : f ≠ t) (h1 : dlookup (f.code ++ t.code) cache = none)
    (h2 : dlookup (t.code ++ f.code) cache = none) :
    resolveRate cache f t =
      .error (.httpException 400 ("Unsupported pair " ++ (f.code ++ t.code))) := by
  simp only [resolveRate]
  rw [if_neg hne, h1, h2]

lemma convert_of_get_ok {fetch : Except PyErr Table} {ttl t1 t2 : ℚ}
    {s s2 : CacheState} {cache : Table}
    (hget : get_rates_cached fetch ttl t1 t2 s = (.ok cache, s2))
    (f t : Currency) (q : ℚ) :
    convert fetch ttl t1 t2 s f t q =
      match resolveRate cache f t with
      | .error e => (.error (wrapError e), s2)
      | .ok rate => (.ok ⟨round_number (q * rate), t⟩, s2) := by
  rw [convert, hget]

lemma convert_of_get_error {fetch : Except PyErr Table} {ttl t1 t2 : ℚ}
    {s s2 : CacheState} {err : PyErr}
    (hget : get_rates_cached fetch ttl t1 t2 s = (.error err, s2))
    (f t : Currency) (q : ℚ) :
    convert fetch ttl t1 t2 s f t q = (.error (wrapError err), s2) := by
  rw [convert, hget]

/-- C2: `convert` resolves the rate in exactly this order — identity pairs
get rate `1` with no lookup (the result is the same for every cache); a
present direct key `from+to` is used as-is; otherwise a present reciprocal
key `to+from` yields `1 / table[to+from]`; otherwise the request fails with
`HTTPException(400, "Unsupported pair <pair>")`. -/
theorem convert_resolution_order (fetch : Except PyErr Table) (ttl t1 t2 : ℚ)
    (s s2 : CacheState) (cache : Table)
    (hget : get_rates_cached fetch ttl t1 t2 s = (.ok cache, s2))
    (f t : Currency) (q : ℚ) (hq : 0 < q) :
    (f = t → convert fetch ttl t1 t2 s f t q =
      (.ok ⟨round_number (q * 1), t⟩, s2)) ∧
    (f ≠ t → ∀ r, dlookup (f.code ++ t.code) cache = some r →
      convert fetch ttl t1 t2 s f t q = (.ok ⟨round_number (q * r), t⟩, s2)) ∧
    (f ≠ t → dlookup (f.code ++ t.code) cache = none →
      ∀ r, dlookup (t.code ++ f.code) cache = some r →
      convert fetch ttl t1 t2 s f t q =
        (.ok ⟨round_number (q * (1 / r)), t⟩, s2)) ∧
    (f ≠ t → dlookup (f.code ++ t.code) cache = none →
      dlookup (t.code ++ f.code) cache = none →
      convert fetch ttl t1 t2 s f t q =
        (.error (.httpException 400 ("Unsupported pair " ++ (f.code ++ t.code))),
         s2)) := by
  refine ⟨?_, ?_, ?_, ?_⟩
  · rintro rfl
    rw [convert_of_get_ok hget, resolveRate_identity]
  · intro hne r hr
    rw [convert_of_get_ok hget, resolveRate_direct hne hr]
  · intro hne h1 r h2
    rw [convert_of_get_ok hget, resolveRate_reciprocal hne h1 h2]
  · intro hne h1 h2
    rw [convert_of_get_ok hget, resolveRate_unsupported hne h1 h2]
    rfl

/-- C2 witness: a fresh cache holding only `GBPUSD`, exercising the identity,
direct, reciprocal buckets, plus the absent `USDEUR`/`EURUSD` pair ending in
the 400 error.  `freshState` below. -/
theorem convert_resolution_order_witness :
    (get_rates_cached (.ok []) 300 0 0 ⟨[("GBPUSD", (5 : ℚ) / 4)], some 1⟩ =
      (.ok [("GBPUSD", (5 : ℚ) / 4)], ⟨[("GBPUSD", (5 : ℚ) / 4)], some 1⟩)) ∧
    (0 : ℚ) < 100 ∧
    (Currency.GBP = .GBP →
      convert (.ok []) 300 0 0 ⟨[("GBPUSD", (5 : ℚ) / 4)], some 1⟩ .GBP .GBP 100 =
        (.ok ⟨round_number (100 * 1), .GBP⟩, ⟨[("GBPUSD", (5 : ℚ) / 4)], some 1⟩)) ∧
    (Currency.GBP ≠ .USD →
      ∀ r, dlookup (Currency.GBP.code ++ Currency.USD.code) [("GBPUSD", (5 : ℚ) / 4)] = some r →
      convert (.ok []) 300 0 0 ⟨[("GBPUSD", (5 : ℚ) / 4)], some 1⟩ .GBP .USD 100 =
        (.ok ⟨round_number (100 * r), .USD⟩, ⟨[("GBPUSD", (5 : ℚ) / 4)], some 1⟩)) ∧
    (Currency.USD ≠ .GBP →
      dlookup (Currency.USD.code ++ Currency.GBP.code) [("GBPUSD", (5 : ℚ) / 4)] = none →
      ∀ r, dlookup (Currency.GBP.code ++ Currency.USD.code) [("GBPUSD", (5 : ℚ) / 4)] = some r →
      convert (.ok []) 300 0 0 ⟨[("GBPUSD", (5 : ℚ) / 4)], some 1⟩ .USD .GBP 100 =
        (.ok ⟨round_number (100 * (1 / r)), .GBP⟩, ⟨[("GBPUSD", (5 : ℚ) / 4)], some 1⟩)) ∧
    (Currency.USD ≠ .EUR →
      dlookup (Currency.USD.code ++ Currency.EUR.code) [("GBPUSD", (5 : ℚ) / 4)] = none →
      dlookup (Currency.EUR.code ++ Currency.USD.code) [("GBPUSD", (5 : ℚ) / 4)] = none →
      convert (.ok []) 300 0 0 ⟨[("GBPUSD", (5 : ℚ) / 4)], some 1⟩ .USD .EUR 100 =
        (.error (.httpException 400
          ("Unsupported pair " ++ (Currency.USD.code ++ Currency.EUR.code))),
         ⟨[("GBPUSD", (5 : ℚ) / 4)], some 1⟩)) := by
  have hget : get_rates_cached (.ok []) 300 0 0 ⟨[("GBPUSD", (5 : ℚ) / 4)], some 1⟩ =
      (.ok [("GBPUSD", (5 : ℚ) / 4)], ⟨[("GBPUSD", (5 : ℚ) / 4)], some 1⟩) := rfl
  refine ⟨hget, by decide, ?_, ?_, ?_, ?_⟩
  · exact (convert_resolution_order _ 300 0 0 _ _ _ hget .GBP .GBP 100 (by decide)).1
  · exact (convert_resolution_order _ 300 0 0 _ _ _ hget .GBP .USD 100 (by decide)).2.1
  · exact (convert_resolution_order _ 300 0 0 _ _ _ hget .USD .GBP 100 (by decide)).2.2.1
  · exact (convert_resolution_order _ 300 0 0 _ _ _ hget .USD .EUR 100 (by decide)).2.2.2

lemma convert_same_currency_of_get {fetch : Except PyErr Table} {ttl t1 t2 : ℚ}
    {s s2 : CacheState} {cache : Table}
    (hget : get_rates_cached fetch ttl t1 t2 s = (.ok cache, s2))
    (X : Currency) (q : ℚ) :
    convert fetch ttl t1 t2 s X X q = (.ok ⟨round_number q, X⟩, s2) := by
  rw [convert_of_get_ok hget, resolveRate_identity]
  show ((Except.ok (ConvertResult.mk (round_number (q * 1)) X) :
      Except PyErr ConvertResult), s2) =
    (Except.ok (ConvertResult.mk (round_number q) X), s2)
  rw [mul_one]

/-- C6: a same-currency conversion with a served cache returns the quantity
itself rounded half-up to two decimal places, tagged with the same
currency. -/
theorem convert_identity (fetch : Except PyErr Table) (ttl t1 t2 : ℚ)
    (s s2 : CacheState) (cache : Table)
    (hget : get_rates_cached fetch ttl t1 t2 s = (.ok cache, s2))
    (X : Currency) (q : ℚ) (hq : 0 < q) :
    convert fetch ttl t1 t2 s X X q = (.ok ⟨round_number q, X⟩, s2) :=
  convert_same_currency_of_get hget X q

/-- C6 witness: `convert(GBP, GBP, 123.45) = 123.45` on a fresh cache. -/
theorem convert_identity_witness :
    (get_rates_cached (.ok []) 300 0 0 ⟨[("GBPUSD", (5 : ℚ) / 4)], some 1⟩ =
      (.ok [("GBPUSD", (5 : ℚ) / 4)], ⟨[("GBPUSD", (5 : ℚ) / 4)], some 1⟩)) ∧
    (0 : ℚ) < 12345 / 100 ∧
    convert (.ok []) 300 0 0 ⟨[("GBPUSD", (5 : ℚ) / 4)], some 1⟩ .GBP .GBP (12345 / 100) =
      (.ok ⟨round_number (12345 / 100), .GBP⟩, ⟨[("GBPUSD", (5 : ℚ) / 4)], some 1⟩) :=
  ⟨rfl, by norm_num,
    convert_identity (.ok []) 300 0 0 ⟨[("GBPUSD", (5 : ℚ) / 4)], some 1⟩
      ⟨[("GBPUSD", (5 : ℚ) / 4)], some 1⟩ [("GBPUSD", (5 : ℚ) / 4)] rfl
      .GBP (12345 / 100) (by norm_num)⟩

/-- C5: every successful non-identity conversion rounds exactly once, on the
final product `quantity * rate` with the table rate used unrounded; and on
rate `8/9` with quantity `100` the policies diverge — rounding the final
product yields `88.89`, while pre-rounding the rate would yield `89.00`. -/
theorem rounding_applied_once_to_product :
    (∀ (fetch : Except PyErr Table) (ttl t1 t2 : ℚ) (s s2 : CacheState)
      (cache : Table) (f t : Currency) (q r : ℚ),
      get_rates_cached fetch ttl t1 t2 s = (.ok cache, s2) → f ≠ t →
      dlookup (f.code ++ t.code) cache = some r →
      convert fetch ttl t1 t2 s f t q = (.ok ⟨round_number (q * r), t⟩, s2)) ∧
    round_number (100 * (8 / 9)) = 8889 / 100 ∧
    round_number (100 * round_number (8 / 9)) = 89 ∧
    (8889 / 100 : ℚ) ≠ 89 := by
  refine ⟨?_, ?_, ?_, by norm_num⟩
  · intro fetch ttl t1 t2 s s2 cache f t q r hget hne hr
    rw [convert_of_get_ok hget, resolveRate_direct hne hr]
  · norm_num [round_number]
  · norm_num [round_number]

/-- C5 witness: converting 100 EUR to GBP over a cache whose `EURGBP` rate is
`8/9` rounds the final product only. -/
theorem rounding_applied_once_to_product_witness :
    (get_rates_cached (.ok []) 300 0 0 ⟨[("EURGBP", (8 : ℚ) / 9)], some 1⟩ =
      (.ok [("EURGBP", (8 : ℚ) / 9)], ⟨[("EURGBP", (8 : ℚ) / 9)], some 1⟩)) ∧
    Currency.EUR ≠ .GBP ∧
    dlookup (Currency.EUR.code ++ Currency.GBP.code) [("EURGBP", (8 : ℚ) / 9)] =
      some ((8 : ℚ) / 9) ∧
    convert (.ok []) 300 0 0 ⟨[("EURGBP", (8 : ℚ) / 9)], some 1⟩ .EUR .GBP 100 =
      (.ok ⟨round_number (100 * (8 / 9)), .GBP⟩, ⟨[("EURGBP", (8 : ℚ) / 9)], some 1⟩) :=
  ⟨rfl, by decide, rfl,
    rounding_applied_once_to_product.1 (.ok []) 300 0 0
      ⟨[("EURGBP", (8 : ℚ) / 9)], some 1⟩ ⟨[("EURGBP", (8 : ℚ) / 9)], some 1⟩
      [("EURGBP", (8 : ℚ) / 9)] .EUR .GBP 100 (8 / 9) rfl (by decide) rfl⟩

/-- C7: in every table `_build_cross_rates` derives from positive bridge
prices, whenever both directed keys of a currency pair are present their
rates multiply to exactly 1 (exact in ℚ; the source's 28-digit decimals agree
up to that precision). -/
theorem reciprocal_consistency {prices tbl : Table} {u e g : ℚ}
    (h3 : OnlyFetchedSymbols prices) (hnd : (dkeys prices).Nodup)
    (hu : ("BTCUSDT", u) ∈ prices) (he : ("BTCEUR", e) ∈ prices)
    (hg : ("BTCGBP", g) ∈ prices)
    (hupos : 0 < u) (hepos : 0 < e) (hgpos : 0 < g)
    (htbl : build_cross_rates prices = .ok tbl) :
    ∀ (A B : Currency) (x y : ℚ),
      dlookup (A.code ++ B.code) tbl = some x →
      dlookup (B.code ++ A.code) tbl = some y → x * y = 1 := by
  obtain ⟨hEU, hUE, hGU, hUG, hEG, hGE⟩ :=
    build_cross_rates_lookups h3 hnd hu he hg htbl
  rw [build_cross_rates_general h3 hnd hu he hg] at htbl
  obtain rfl := Except.ok.inj htbl
  have hu0 : u ≠ 0 := ne_of_gt hupos
  have he0 : e ≠ 0 := ne_of_gt hepos
  have hg0 : g ≠ 0 := ne_of_gt hgpos
  have hx0 : u / e * (g / u) ≠ 0 :=
    ne_of_gt (mul_pos (div_pos hupos hepos) (div_pos hgpos hupos))
  have hnn : ∀ k : String, k ≠ "GBPEUR" → k ≠ "EURGBP" → k ≠ "EURUSD" →
      k ≠ "USDEUR" → k ≠ "GBPUSD" → k ≠ "USDGBP" →
      dlookup k (("GBPEUR", 1 / (u / e * (g / u))) ::
        ("EURGBP", u / e * (g / u)) :: crossLoop u [] prices) = none := by
    intro k hk1 hk2 hk3 hk4 hk5 hk6
    rw [dlookup, if_neg hk1, dlookup, if_neg hk2]
    rw [crossLoop_lookup_untouched u k prices h3
      (fun _ => ⟨hk3, hk4⟩) (fun _ => ⟨hk5, hk6⟩) []]
    rfl
  intro A B x y hx hy
  cases A with
  | USD =>
    cases B with
    | USD =>
      rw [show Currency.USD.code ++ Currency.USD.code = "USDUSD" from rfl] at hx
      rw [hnn "USDUSD" (by decide) (by decide) (by decide) (by decide)
        (by decide) (by decide)] at hx
      cases hx
    | EUR =>
      rw [show Currency.USD.code ++ Currency.EUR.code = "USDEUR" from rfl] at hx
      rw [show Currency.EUR.code ++ Currency.USD.code = "EURUSD" from rfl] at hy
      obtain rfl := Option.some.inj (hUE.symm.trans hx)
      obtain rfl := Option.some.inj (hEU.symm.trans hy)
      field_simp
    | GBP =>
      rw [show Currency.USD.code ++ Currency.GBP.code = "USDGBP" from rfl] at hx
      rw [show Currency.GBP.code ++ Currency.USD.code = "GBPUSD" from rfl] at hy
      obtain rfl := Option.some.inj (hUG.symm.trans hx)
      obtain rfl := Option.some.inj (hGU.symm.trans hy)
      field_simp
  | EUR =>
    cases B with
    | USD =>
      rw [show Currency.EUR.code ++ Currency.USD.code = "EURUSD" from rfl] at hx
      rw [show Currency.USD.code ++ Currency.EUR.code = "USDEUR" from rfl] at hy
      obtain rfl := Option.some.inj (hEU.symm.trans hx)
      obtain rfl := Option.some.inj (hUE.symm.trans hy)
      field_simp
    | EUR =>
      rw [show Currency.EUR.code ++ Currency.EUR.code = "EUREUR" from rfl] at hx
      rw [hnn "EUREUR" (by decide) (by decide) (by decide) (by decide)
        (by decide) (by decide)] at hx
      cases hx
    | GBP =>
      rw [show Currency.EUR.code ++ Currency.GBP.code = "EURGBP" from rfl] at hx
      rw [show Currency.GBP.code ++ Currency.EUR.code = "GBPEUR" from rfl] at hy
      obtain rfl := Option.some.inj (hEG.symm.trans hx)
      obtain rfl := Option.some.inj (hGE.symm.trans hy)
      rw [mul_one_div_cancel hx0]
  | GBP =>
    cases B with
    | USD =>
      rw [show Currency.GBP.code ++ Currency.USD.code = "GBPUSD" from rfl] at hx
      rw [show Currency.USD.code ++ Currency.GBP.code = "USDGBP" from rfl] at hy
      obtain rfl := Option.some.inj (hGU.symm.trans hx)
      obtain rfl := Option.some.inj (hUG.symm.trans hy)
      field_simp
    | EUR =>
      rw [show Currency.GBP.code ++ Currency.EUR.code = "GBPEUR" from rfl] at hx
      rw [show Currency.EUR.code ++ Currency.GBP.code = "EURGBP" from rfl] at hy
      obtain rfl := Option.some.inj (hGE.symm.trans hx)
      obtain rfl := Option.some.inj (hEG.symm.trans hy)
      rw [one_div, inv_mul_cancel₀ hx0]
    | GBP =>
      rw [show Currency.GBP.code ++ Currency.GBP.code = "GBPGBP" from rfl] at hx
      rw [hnn "GBPGBP" (by decide) (by decide) (by decide) (by decide)
        (by decide) (by decide)] at hx
      cases hx

/-- C7 witness: the seed table's `EURGBP`/`GBPEUR` rates multiply to 1. -/
theorem reciprocal_consistency_witness :
    OnlyFetchedSymbols (fetchedPrices 100000 90000 80000) ∧
    (dkeys (fetchedPrices 100000 90000 80000)).Nodup ∧
    build_cross_rates (fetchedPrices 100000 90000 80000) =
      .ok (stdTable 100000 90000 80000) ∧
    dlookup (Currency.EUR.code ++ Currency.GBP.code) (stdTable 100000 90000 80000) =
      some ((100000 : ℚ) / 90000 * (80000 / 100000)) ∧
    dlookup (Currency.GBP.code ++ Currency.EUR.code) (stdTable 100000 90000 80000) =
      some (1 / ((100000 : ℚ) / 90000 * (80000 / 100000))) ∧
    ((100000 : ℚ) / 90000 * (80000 / 100000)) *
      (1 / ((100000 : ℚ) / 90000 * (80000 / 100000))) = 1 :=
  ⟨by decide, by decide, build_cross_rates_fetched 100000 90000 80000, rfl, rfl,
    @reciprocal_consistency (fetchedPrices 100000 90000 80000)
      (stdTable 100000 90000 80000) 100000 90000 80000
      (by decide) (by decide) (by decide) (by decide)
      (by decide) (by decide) (by decide) (by decide)
      (build_cross_rates_fetched 100000 90000 80000) .EUR .GBP _ _ rfl rfl⟩

/-- C9: the flat table merged after a successful refresh contains all six
directed fiat pair keys, so every non-identity conversion is served by the
direct-pair branch of the resolution — the reciprocal branch and the
`UnsupportedPair` branch are unreachable on such a table. -/
theorem refreshed_table_serves_all_pairs_directly {prices tbl : Table}
    {u e g : ℚ}
    (h3 : OnlyFetchedSymbols prices) (hnd : (dkeys prices).Nodup)
    (hu : ("BTCUSDT", u) ∈ prices) (he : ("BTCEUR", e) ∈ prices)
    (hg : ("BTCGBP", g) ∈ prices)
    (htbl : build_cross_rates prices = .ok tbl) :
    ∀ f t : Currency, f ≠ t →
      ∃ r, dlookup (f.code ++ t.code) (dmerge prices tbl) = some r ∧
        resolveRate (dmerge prices tbl) f t = .ok r := by
  obtain ⟨hEU, hUE, hGU, hUG, hEG, hGE⟩ :=
    build_cross_rates_lookups h3 hnd hu he hg htbl
  intro f t hne
  cases f with
  | USD =>
    cases t with
    | USD => exact absurd rfl hne
    | EUR =>
      exact ⟨e / u, dlookup_append_of_some prices hUE,
        resolveRate_direct hne (dlookup_append_of_some prices hUE)⟩
    | GBP =>
      exact ⟨g / u, dlookup_append_of_some prices hUG,
        resolveRate_direct hne (dlookup_append_of_some prices hUG)⟩
  | EUR =>
    cases t with
    | USD =>
      exact ⟨u / e, dlookup_append_of_some prices hEU,
        resolveRate_direct hne (dlookup_append_of_some prices hEU)⟩
    | EUR => exact absurd rfl hne
    | GBP =>
      exact ⟨u / e * (g / u), dlookup_append_of_some prices hEG,
        resolveRate_direct hne (dlookup_append_of_some prices hEG)⟩
  | GBP =>
    cases t with
    | USD =>
      exact ⟨u / g, dlookup_append_of_some prices hGU,
        resolveRate_direct hne (dlookup_append_of_some prices hGU)⟩
    | EUR =>
      exact ⟨1 / (u / e * (g / u)), dlookup_append_of_some prices hGE,
        resolveRate_direct hne (dlookup_append_of_some prices hGE)⟩
    | GBP => exact absurd rfl hne

/-- C9 witness: the merged seed table serves USD→GBP directly. -/
theorem refreshed_table_serves_all_pairs_directly_witness :
    OnlyFetchedSymbols (fetchedPrices 100000 90000 80000) ∧
    (dkeys (fetchedPrices 100000 90000 80000)).Nodup ∧
    build_cross_rates (fetchedPrices 100000 90000 80000) =
      .ok (stdTable 100000 90000 80000) ∧
    Currency.USD ≠ .GBP ∧
    (∃ r, dlookup (Currency.USD.code ++ Currency.GBP.code)
        (dmerge (fetchedPrices 100000 90000 80000) (stdTable 100000 90000 80000)) =
          some r ∧
      resolveRate (dmerge (fetchedPrices 100000 90000 80000)
        (stdTable 100000 90000 80000)) .USD .GBP = .ok r) :=
  ⟨by decide, by decide, build_cross_rates_fetched 100000 90000 80000, by decide,
    @refreshed_table_serves_all_pairs_directly (fetchedPrices 100000 90000 80000)
      (stdTable 100000 90000 80000) 100000 90000 80000
      (by decide) (by decide) (by decide)
      (by decide) (by decide) (build_cross_rates_fetched 100000 90000 80000)
      .USD .GBP (by decide)⟩

/-- C10: `convert` awaits the cache getter before the identity check, so a
same-currency request on an empty or expired cache still performs a full
refresh: if the refresh fails the request fails with the propagated error
and the state is unchanged; if it succeeds the state is replaced even though
the rate is 1. -/
theorem identity_conversion_requires_refresh (fetch : Except PyErr Table)
    (ttl t1 t2 : ℚ) (s : CacheState) (f : Currency) (q : ℚ) (hq : 0 < q)
    (hstale : ¬ (s.cache ≠ [] ∧ ∃ ex, s.expiry = some ex ∧ t1 < ex)) :
    (∀ err, fetch = .error err →
      convert fetch ttl t1 t2 s f f q = (.error (wrapError err), s)) ∧
    (∀ prices tbl, fetch = .ok prices → build_cross_rates prices = .ok tbl →
      convert fetch ttl t1 t2 s f f q =
        (.ok ⟨round_number q, f⟩,
         { cache := dmerge prices tbl, expiry := some (t2 + ttl) })) := by
  constructor
  · intro err herr
    exact convert_of_get_error
      (get_rates_cached_stale_fetch_error (isFresh_false_of_stale hstale) herr)
      f f q
  · intro prices tbl hfetch htbl
    exact convert_same_currency_of_get
      (get_rates_cached_stale_refresh_ok (isFresh_false_of_stale hstale)
        hfetch htbl) f q

/-- C10 witness: on the empty initial cache, `convert(USD, USD, 1)` fails
when the fetch fails, and refreshes the cache when the fetch succeeds. -/
theorem identity_conversion_requires_refresh_witness :
    (0 : ℚ) < 1 ∧
    (¬ ((initialState.cache ≠ [] ∧ ∃ ex, initialState.expiry = some ex ∧ (3 : ℚ) < ex))) ∧
    ((.error (.httpException 502 "Binance error for BTCUSDT") : Except PyErr Table) =
        .error (.httpException 502 "Binance error for BTCUSDT") ∧
      convert (.error (.httpException 502 "Binance error for BTCUSDT")) 300 3 7
          initialState .USD .USD 1 =
        (.error (wrapError (.httpException 502 "Binance error for BTCUSDT")),
         initialState)) ∧
    ((.ok (fetchedPrices 100000 90000 80000) : Except PyErr Table) =
        .ok (fetchedPrices 100000 90000 80000) ∧
      build_cross_rates (fetchedPrices 100000 90000 80000) =
        .ok (stdTable 100000 90000 80000) ∧
      convert (.ok (fetchedPrices 100000 90000 80000)) 300 3 7
          initialState .USD .USD 1 =
        (.ok ⟨round_number 1, .USD⟩,
         { cache := dmerge (fetchedPrices 100000 90000 80000) (stdTable 100000 90000 80000),
           expiry := some (7 + 300) })) := by
  refine ⟨by decide, by simp [initialState], ⟨rfl, ?_⟩, ⟨rfl,
    build_cross_rates_fetched 100000 90000 80000, ?_⟩⟩
  · exact (identity_conversion_requires_refresh _ 300 3 7 initialState .USD 1
      (by decide) (by simp [initialState])).1 _ rfl
  · exact (identity_conversion_requires_refresh _ 300 3 7 initialState .USD 1
      (by decide) (by simp [initialState])).2 _ _ rfl
      (build_cross_rates_fetched 100000 90000 80000)

end CurrencyConverter
